import Mathlib

/-!
Verification of the manifest-manipulation CLI module
(`lhotse/bin/modes/manipulation.py`): the `filter`, `split` and `subset`
commands, shallowly embedded over explicit record lists.

Python values appearing as manifest attributes or predicate literals are
modelled by `Value` (integers, floats-as-rationals, strings); errors and
process exits become constructors of explicit outcome types.
-/

/-- A Python value as it occurs in manifest attributes and predicate
literals: `int`, `float` (modelled exactly as a rational), or a
non-numeric value such as `str`. -/
inductive Value where
  | int (n : ℤ)
  | float (q : ℚ)
  | str (s : String)
deriving DecidableEq

/-- Numeric view of a `Value`: Python's numeric comparisons coerce `int`
and `float` to a common numeric value; strings have none, and comparing
them against a number raises `TypeError`. -/
def Value.toQ : Value → Option ℚ
  | .int n => some (n : ℚ)
  | .float q => some q
  | .str _ => none

/-- One manifest item: an identifier plus named attributes
(`getattr`-style lookup over an association list). -/
structure Record where
  id : String
  attrs : List (String × Value)
deriving DecidableEq

/-- `getattr(item, key)`: `none` models Python raising `AttributeError`. -/
def getattr (r : Record) (key : String) : Option Value :=
  (r.attrs.find? (fun p => p.1 == key)).map (fun p => p.2)

/-- Value of a digit string, most significant first (as Python `int`). -/
def digitsToNat (cs : List Char) : ℕ :=
  cs.foldl (fun acc c => acc * 10 + (c.toNat - 48)) 0

/-- Python `int(s)` restricted to the strings the predicate regex can
produce (characters drawn from `[0-9.]`): succeeds exactly on a nonempty
all-digit string. -/
def pyIntParse (s : String) : Option ℤ :=
  let cs := s.toList
  if cs ≠ [] ∧ cs.all Char.isDigit then some (digitsToNat cs) else none

/-- Python `float(s)` restricted to the strings the predicate regex can
produce: digits with at most one dot and at least one digit
(`"1."`, `".5"`, `"12"` succeed; `"."`, `"1.2.3"` raise `ValueError`).
The decimal `ip.fp` denotes the exact rational
`(ip * 10^|fp| + fp) / 10^|fp|`. -/
def pyFloatParse (s : String) : Option ℚ :=
  let cs := s.toList
  let ip := cs.takeWhile Char.isDigit
  let rest := cs.drop ip.length
  match rest with
  | [] => if ip ≠ [] then some (mkRat (digitsToNat ip) 1) else none
  | '.' :: fp =>
    if fp.all Char.isDigit ∧ (ip ≠ [] ∨ fp ≠ []) then
      some (mkRat (digitsToNat ip * 10 ^ fp.length + digitsToNat fp) (10 ^ fp.length))
    else none
  | _ => none

/-- The literal-parsing step of `filter`: `int(...)` first, and on its
`ValueError`, `float(...)`; `none` models an uncaught `ValueError` when
both fail. -/
def parseLiteral (s : String) : Option Value :=
  match pyIntParse s with
  | some n => some (.int n)
  | none => (pyFloatParse s).map .float

/-- Python regex `\w` (ASCII fragment): letters, digits, underscore. -/
def isWordChar (c : Char) : Bool :=
  c.isAlphanum || c = '_'

/-- Characters admitted by the `(?P<value>[0-9.]+)` group. -/
def isValueChar (c : Char) : Bool :=
  c.isDigit || c = '.'

/-- The operator alternation `=|==|!=|>|<|>=|<=` in its source order;
Python's regex engine tries the alternatives left to right and
backtracks when the following value group cannot match. -/
def opsInOrder : List String :=
  ["=", "==", "!=", ">", "<", ">=", "<="]

/-- One alternative of the operator alternation at the current position:
it succeeds when the operator text is a prefix and the greedy
`[0-9.]+` value group matches a nonempty run right after it. -/
def tryOpAt (cs : List Char) (op : String) : Option (String × String) :=
  if op.toList.isPrefixOf cs then
    let rest := cs.drop op.toList.length
    let v := rest.takeWhile isValueChar
    if v ≠ [] then some (op, String.mk v) else none
  else none

/-- Python `re.match` of the predicate pattern
`(?P<key>\w+)(?P<op>=|==|!=|>|<|>=|<=)(?P<value>[0-9.]+)`: an anchored
PREFIX match (trailing characters are allowed). The `\w+` key is the
maximal word-character run (no operator starts with a word character,
so key backtracking can never help), then the ordered alternation with
backtracking into the value group. -/
def pyMatch (s : String) : Option (String × String × String) :=
  let cs := s.toList
  let key := cs.takeWhile isWordChar
  if key = [] then none
  else
    match opsInOrder.findSome? (tryOpAt (cs.drop key.length)) with
    | some (op, v) => some (String.mk key, op, v)
    | none => none

/-- The relative tolerance of `math.isclose` (default `rel_tol=1e-9`). -/
def relTol : ℚ := 1 / 1000000000

/-- `math.isclose(a, b)` with its defaults (`rel_tol=1e-9`,
`abs_tol=0.0`): `|a-b| <= max(rel_tol*max(|a|,|b|), abs_tol)`, written
in the equivalent cross-multiplied integer form over the reduced
numerators and denominators so that the kernel can evaluate it; the
lemma `iscloseQ_eq_true_iff` below recovers the exact `math.isclose`
formula. -/
def iscloseQ (a b : ℚ) : Bool :=
  1000000000 * |a.num * (b.den : ℤ) - b.num * (a.den : ℤ)| ≤
    max (|a.num| * (b.den : ℤ)) (|b.num| * (a.den : ℤ))

/-- The comparator selected by the `compare` dictionary, applied to two
numeric values: `<`, `>`, `>=`, `<=` are `operator.lt/gt/ge/le`; `=` and
`==` are `math.isclose`; `!=` is `complement(isclose)`. -/
def compareQ (op : String) (a b : ℚ) : Bool :=
  if op = "<" then decide (a < b)
  else if op = ">" then decide (b < a)
  else if op = ">=" then decide (b ≤ a)
  else if op = "<=" then decide (a ≤ b)
  else if op = "=" then iscloseQ a b
  else if op = "==" then iscloseQ a b
  else if op = "!=" then !(iscloseQ a b)
  else false

/-- `compare(attr, value)` on Python values: comparing a non-numeric
attribute against the numeric literal raises `TypeError` (`none`). -/
def applyCompare (op : String) (attr lit : Value) : Option Bool :=
  match attr.toQ, lit.toQ with
  | some a, some b => some (compareQ op a b)
  | _, _ => none

/-- The evaluation of one record inside the filter loop: attribute
lookup followed by the comparison; `none` means the loop body raised. -/
def evalItem (key op : String) (lit : Value) (r : Record) : Option Bool :=
  (getattr r key).bind (fun v => applyCompare op v lit)

/-- The record keeps iff its evaluation succeeded with `True`. -/
def keepItem (key op : String) (lit : Value) (r : Record) : Bool :=
  (evalItem key op lit r).getD false

/-- Modelled from the spec: `to_manifest` (in `lhotse.manipulation`, not
under `src/`) resolves a raw item sequence to a manifest set of the
matching concrete type, and yields the empty marker (`None`) for an
empty sequence — spec §4.5 Steps 4–5. In this embedding the set is its
item list. -/
def to_manifest (items : List Record) : Option (List Record) :=
  if items.isEmpty then none else some items

/-- Terminal outcome of one `lhotse filter` invocation.
`invalidPredicate` is the uncaught `ValueError` for a non-matching
predicate; `literalValueError` the uncaught `ValueError` when the value
text is neither a valid `int` nor a valid `float`; `typeError` an
uncaught `TypeError` from the comparison; `attrError k m` the caught
`AttributeError` path, which echoes a message naming attribute `k` and
manifest path `m` and calls `exit(1)`; `emptyResult` echoes
"No items satisfying the predicate." and calls `exit(0)` writing
nothing; `output items` writes the filtered manifest. -/
inductive Outcome where
  | invalidPredicate
  | literalValueError
  | typeError
  | attrError (attrName manifestPath : String)
  | emptyResult
  | output (items : List Record)
deriving DecidableEq

/-- Process exit status of each outcome (an uncaught Python exception
terminates the interpreter with status 1). -/
def Outcome.exitCode : Outcome → ℕ
  | .output _ => 0
  | .emptyResult => 0
  | _ => 1

/-- Whether the invocation wrote an output manifest. -/
def Outcome.wroteOutput : Outcome → Bool
  | .output _ => true
  | _ => false

/-- The final step of `filter` after the loop: `to_manifest` on the
retained items, then either the echo-and-`exit(0)` empty path or the
manifest write. -/
def finishFilter (retained : List Record) : Outcome :=
  match to_manifest retained with
  | none => .emptyResult
  | some s => .output s

/-- The retained-items loop of `filter` (the `for` inside `try`), with
the accumulated retained items, followed by `to_manifest` and the final
write/empty/exit logic. An `AttributeError` anywhere in the loop is
caught and mapped to the echo-and-`exit(1)` path; a `TypeError`
propagates. -/
def filterLoop (key op : String) (lit : Value) (manifestPath : String) :
    List Record → List Record → Outcome
  | [], acc => finishFilter acc.reverse
  | item :: rest, acc =>
    match getattr item key with
    | none => .attrError key manifestPath
    | some attr =>
      match applyCompare op attr lit with
      | none => .typeError
      | some b => filterLoop key op lit manifestPath rest (if b then item :: acc else acc)

/-- The whole `filter` command on a loaded manifest: predicate regex
match (prefix semantics), comparator selection, literal parse, loop,
and output. -/
def filterRun (predicate manifestPath : String) (data : List Record) : Outcome :=
  match pyMatch predicate with
  | none => .invalidPredicate
  | some (key, op, vtext) =>
    match parseLiteral vtext with
    | none => .literalValueError
    | some lit => filterLoop key op lit manifestPath data []

/-- Follows the spec's words (§4.5 Step 1): the FULL-text predicate
grammar `<identifier><op><numeric literal>` with `<op>` one of
`=`, `==`, `!=`, `>`, `<`, `>=`, `<=`, no whitespace permitted; the
identifier is a word-character run, so it is necessarily the maximal
word prefix, and the numeric literal must cover the entire remainder
after the operator and be a valid `int` or `float` text. This is the
spec-side definition, to be compared with the implementation's
prefix-matching `pyMatch`. -/
def specGrammarAccepts (s : String) : Bool :=
  let cs := s.toList
  let key := cs.takeWhile isWordChar
  let rest := cs.drop key.length
  key ≠ [] ∧ opsInOrder.any (fun op =>
    op.toList.isPrefixOf rest ∧
      (let v := String.mk (rest.drop op.toList.length)
       (pyIntParse v).isSome ∨ (pyFloatParse v).isSome))

/-- Modelled from the spec (§4.2): the per-part sizes of `split` for
`n` records in `k` parts — the first `n mod k` parts get `⌈n/k⌉`
records and the rest get `⌊n/k⌋`. -/
def partSizes (n k : ℕ) : List ℕ :=
  (List.range k).map (fun i => if i < n % k then n / k + 1 else n / k)

/-- Cut a list into consecutive chunks of the given sizes. -/
def takeSizes {α : Type} : List ℕ → List α → List (List α)
  | [], _ => []
  | s :: rest, xs => xs.take s :: takeSizes rest (xs.drop s)

/-- Modelled from the spec: the `split` method of manifest sets
(library code invoked by the CLI `split` command, not under `src/`),
in its `shuffle=false` branch — the records are divided into
`num_splits` contiguous chunks as close to equal size as possible,
preserving the original order (spec §4.2). -/
def splitManifest (k : ℕ) (xs : List Record) : List (List Record) :=
  takeSizes (partSizes xs.length k) xs

/-- Concrete manifest variants distinguished by the `subset` command's
`isinstance(any_set, CutSet)` test. -/
inductive SetKind where
  | recording
  | supervision
  | cut
deriving DecidableEq

/-- Skip JSON insignificant whitespace. -/
def skipWs : List Char → List Char
  | [] => []
  | c :: rest =>
    if c = ' ' ∨ c = '\n' ∨ c = '\t' ∨ c = '\r' then skipWs rest else c :: rest

/-- Body of a JSON string after the opening quote (escape sequences are
not needed for identifier lists and are not modelled). -/
def strBody : List Char → List Char → Option (String × List Char)
  | [], _ => none
  | '"' :: rest, acc => some (String.mk acc.reverse, rest)
  | c :: rest, acc => strBody rest (c :: acc)

/-- Elements of a JSON array of strings, after the opening bracket,
expecting at least one element; the fuel bounds the remaining input. -/
def itemsLoop : ℕ → List Char → List String → Option (List String)
  | 0, _, _ => none
  | fuel + 1, cs, acc =>
    match skipWs cs with
    | '"' :: rest =>
      match strBody rest [] with
      | none => none
      | some (s, post) =>
        match skipWs post with
        | ',' :: more => itemsLoop fuel more (acc ++ [s])
        | ']' :: more => if skipWs more = [] then some (acc ++ [s]) else none
        | _ => none
    | _ => none

/-- Model of Python `json.loads`/`json.load` restricted to the shape
the `--cutids` argument must have: a JSON array of strings; `none`
models the raised decode error on any other input. -/
def jsonStringArray (s : String) : Option (List String) :=
  match skipWs s.toList with
  | '[' :: rest =>
    match skipWs rest with
    | ']' :: more => if skipWs more = [] then some [] else none
    | cs => itemsLoop (cs.length + 1) cs []
  | _ => none

/-- The cutids-resolution step of the `subset` command: if a file with
that name exists (`fs` models the filesystem contents), its content is
JSON-parsed, otherwise the argument itself is parsed as an inline JSON
array literal. -/
def resolveCutids (fs : String → Option String) (cutids : String) : Option (List String) :=
  match fs cutids with
  | some content => jsonStringArray content
  | none => jsonStringArray cutids

/-- Modelled from the spec (§4.3): the `subset` method shared by all
manifest sets (library code, not under `src/`) restricted to the
`first`/`last` modes used here — `first` takes the leading records,
`last` the trailing ones. -/
def anySubset (data : List Record) (first last : Option ℕ) : List Record :=
  match first with
  | some n => data.take n
  | none =>
    match last with
    | some n => data.drop (data.length - n)
    | none => data

/-- Modelled from the spec (§4.3): `CutSet.subset` (library code, not
under `src/`) — `ids` takes precedence and selects exactly the records
whose identifier appears in the list, preserving the original set's
order, silently ignoring unmatched ids; otherwise `first`/`last`. -/
def cutSubset (data : List Record) (first last : Option ℕ)
    (cutIds : Option (List String)) : List Record :=
  match cutIds with
  | some ids => data.filter (fun r => ids.contains r.id)
  | none => anySubset data first last

/-- Terminal outcome of one `lhotse subset` invocation: `jsonDecodeError`
is an uncaught decode error while resolving `--cutids`;
`unsupportedCutids k` is the uncaught `ValueError` raised when `--cutids`
is passed for a manifest of non-CutSet kind `k` (message naming the
actual type); `output` writes the subset manifest. -/
inductive SubsetOutcome where
  | jsonDecodeError
  | unsupportedCutids (gotKind : SetKind)
  | output (items : List Record)
deriving DecidableEq

/-- Whether the `subset` invocation wrote an output manifest. -/
def SubsetOutcome.wroteOutput : SubsetOutcome → Bool
  | .output _ => true
  | _ => false

/-- The whole `subset` command on a loaded manifest of kind `kind`:
resolve `--cutids` when supplied (before any type test), then dispatch
on `isinstance(any_set, CutSet)`, raising `ValueError` when `--cutids`
was supplied for a non-CutSet manifest, and otherwise writing the
subset produced by the underlying `subset` method. -/
def subsetRun (fs : String → Option String) (kind : SetKind) (data : List Record)
    (first last : Option ℕ) (cutids : Option String) : SubsetOutcome :=
  let cids? : Option (Option (List String)) :=
    match cutids with
    | none => some none
    | some s => (resolveCutids fs s).map some
  match cids? with
  | none => .jsonDecodeError
  | some cids =>
    if kind = .cut then .output (cutSubset data first last cids)
    else if cutids.isSome then .unsupportedCutids kind
    else .output (anySubset data first last)

/-! ## Helper lemmas -/

/-- The executable `iscloseQ` computes exactly the `math.isclose`
default formula `|a-b| <= rel_tol * max(|a|, |b|)`. -/
theorem iscloseQ_eq_true_iff (a b : ℚ) :
    iscloseQ a b = true ↔ |a - b| ≤ relTol * max |a| |b| := by
  have had : (0:ℚ) < (a.den : ℚ) := by exact_mod_cast a.pos
  have hbd : (0:ℚ) < (b.den : ℚ) := by exact_mod_cast b.pos
  have hD : (0:ℚ) < (a.den : ℚ) * (b.den : ℚ) := mul_pos had hbd
  have hna : (a.num : ℚ) = a * (a.den : ℚ) := by
    rw [eq_comm, ← eq_div_iff had.ne']
    exact (Rat.num_div_den a).symm
  have hnb : (b.num : ℚ) = b * (b.den : ℚ) := by
    rw [eq_comm, ← eq_div_iff hbd.ne']
    exact (Rat.num_div_den b).symm
  simp only [iscloseQ, decide_eq_true_eq]
  rw [← @Int.cast_le ℚ]
  push_cast
  rw [hna, hnb]
  have h1 : a * (a.den : ℚ) * (b.den : ℚ) - b * (b.den : ℚ) * (a.den : ℚ)
      = (a - b) * ((a.den : ℚ) * (b.den : ℚ)) := by ring
  have h2 : |a * (a.den : ℚ)| = |a| * (a.den : ℚ) := by
    rw [abs_mul, abs_of_pos had]
  have h3 : |b * (b.den : ℚ)| = |b| * (b.den : ℚ) := by
    rw [abs_mul, abs_of_pos hbd]
  rw [h1, abs_mul, abs_of_pos hD, h2, h3]
  have h4 : max (|a| * (a.den : ℚ) * (b.den : ℚ)) (|b| * (b.den : ℚ) * (a.den : ℚ))
      = max |a| |b| * ((a.den : ℚ) * (b.den : ℚ)) := by
    rw [max_mul_of_nonneg _ _ hD.le]
    ring_nf
  rw [h4, ← mul_assoc, mul_le_mul_right hD, relTol]
  constructor <;> intro h <;> linarith

/-- When every record in the remaining input evaluates without raising,
the loop computes the `List.filter` of the input (after the already
accumulated items). -/
theorem filterLoop_of_all_eval (key op : String) (lit : Value) (mp : String)
    (items : List Record) (acc : List Record)
    (h : ∀ r ∈ items, (evalItem key op lit r).isSome) :
    filterLoop key op lit mp items acc =
      finishFilter (acc.reverse ++ items.filter (keepItem key op lit)) := by
  induction items generalizing acc with
  | nil => simp [filterLoop]
  | cons r rest ih =>
    have hr := h r (by simp)
    match hg : getattr r key with
    | none => simp [evalItem, hg] at hr
    | some v =>
      match hc : applyCompare op v lit with
      | none => simp [evalItem, hg, hc] at hr
      | some b =>
        have hkeep : keepItem key op lit r = b := by
          simp [keepItem, evalItem, hg, hc]
        simp only [filterLoop, hg, hc]
        rw [ih _ (fun x hx => h x (by simp [hx]))]
        cases b with
        | true =>
          simp [List.filter_cons, hkeep, List.append_assoc]
        | false =>
          simp [List.filter_cons, hkeep]

/-- If the records before `r` evaluate without raising and `r` lacks
the attribute, the loop stops at `r` with the caught-`AttributeError`
outcome, whatever comes after it. -/
theorem filterLoop_attr_missing (key op : String) (lit : Value) (mp : String)
    (pre : List Record) (r : Record) (post : List Record) (acc : List Record)
    (hpre : ∀ x ∈ pre, (evalItem key op lit x).isSome)
    (hr : getattr r key = none) :
    filterLoop key op lit mp (pre ++ r :: post) acc = .attrError key mp := by
  induction pre generalizing acc with
  | nil => simp [filterLoop, hr]
  | cons p rest ih =>
    have hp := hpre p (by simp)
    match hg : getattr p key with
    | none => simp [evalItem, hg] at hp
    | some v =>
      match hc : applyCompare op v lit with
      | none => simp [evalItem, hg, hc] at hp
      | some b =>
        simp only [List.cons_append, filterLoop, hg, hc]
        exact ih _ (fun x hx => hpre x (by simp [hx]))

/-- The chunk list is as long as the size list. -/
theorem takeSizes_length {α : Type} (sizes : List ℕ) (xs : List α) :
    (takeSizes sizes xs).length = sizes.length := by
  induction sizes generalizing xs with
  | nil => rfl
  | cons s rest ih => simp [takeSizes, ih]

/-- Concatenating the chunks gives back the prefix of total size. -/
theorem takeSizes_join {α : Type} (sizes : List ℕ) (xs : List α) :
    (takeSizes sizes xs).flatten = xs.take sizes.sum := by
  induction sizes generalizing xs with
  | nil => simp [takeSizes]
  | cons s rest ih =>
    simp only [takeSizes, List.flatten_cons, ih, List.sum_cons]
    rw [← List.take_add]

/-- When the sizes fit in the list, every chunk has its nominal size. -/
theorem takeSizes_mem_length {α : Type} (sizes : List ℕ) (xs : List α)
    (hfit : sizes.sum ≤ xs.length) :
    ∀ p ∈ takeSizes sizes xs, ∃ s ∈ sizes, p.length = s := by
  induction sizes generalizing xs with
  | nil => simp [takeSizes]
  | cons s rest ih =>
    intro p hp
    simp only [takeSizes, List.mem_cons] at hp
    simp only [List.sum_cons] at hfit
    rcases hp with hp | hp
    · refine ⟨s, by simp, ?_⟩
      subst hp
      simp [List.length_take]
      omega
    · obtain ⟨t, ht, hlen⟩ := ih (xs.drop s) (by simp [List.length_drop]; omega) p hp
      exact ⟨t, by simp [ht], hlen⟩

/-- Sum of the balanced part sizes: `j` parts of base size `a`, the
first `min m j` of them one larger. -/
theorem partSizes_sum_aux (a m j : ℕ) :
    ((List.range j).map (fun i => if i < m then a + 1 else a)).sum = j * a + min m j := by
  induction j with
  | zero => simp
  | succ j ih =>
    rw [List.range_succ, List.map_append, List.sum_append]
    simp only [List.map_cons, List.map_nil, List.sum_cons, List.sum_nil, ih]
    rcases Nat.lt_or_ge j m with h | h
    · rw [if_pos h, Nat.succ_mul]
      omega
    · rw [if_neg (by omega), Nat.succ_mul]
      omega

/-- The balanced part sizes add up to the number of records. -/
theorem partSizes_sum (n k : ℕ) (hk : 0 < k) : (partSizes n k).sum = n := by
  rw [partSizes, partSizes_sum_aux]
  have h1 : n % k < k := Nat.mod_lt n hk
  have h2 := Nat.div_add_mod n k
  rw [Nat.min_eq_left h1.le]
  omega

/-- Each balanced part size is the floor or the ceiling of `n / k`. -/
theorem partSizes_mem (n k : ℕ) : ∀ s ∈ partSizes n k, s = n / k ∨ s = n / k + 1 := by
  intro s hs
  simp only [partSizes, List.mem_map, List.mem_range] at hs
  obtain ⟨i, _, hi⟩ := hs
  by_cases h : i < n % k <;> simp [h] at hi <;> omega

/-! ## Claim theorems -/

/-- C1: for every manifest set of numeric-valued records and every
syntactically valid predicate, `filter` with operator `=` or `==`
retains exactly the records whose named attribute value passes the
`math.isclose` approximate-equality test (floating-point tolerance, not
bitwise equality) against the numeric literal, and `!=` retains exactly
the records failing that same test (its negation, not strict
inequality); the final conjunct identifies the retention test with the
`isclose` tolerance formula. -/
theorem filter_eq_neq_isclose_characterization
    (pred mp : String) (data : List Record)
    (key op vtext : String) (lit : Value) (litQ : ℚ)
    (hm : pyMatch pred = some (key, op, vtext))
    (hop : op = "=" ∨ op = "==" ∨ op = "!=")
    (hl : parseLiteral vtext = some lit)
    (hq : lit.toQ = some litQ)
    (hnum : ∀ r ∈ data, ((getattr r key).bind Value.toQ).isSome) :
    filterRun pred mp data =
      finishFilter (data.filter (fun r =>
        match (getattr r key).bind Value.toQ with
        | some q => if op = "!=" then !(iscloseQ q litQ) else iscloseQ q litQ
        | none => false)) ∧
    (∀ x y : ℚ, iscloseQ x y = true ↔ |x - y| ≤ relTol * max |x| |y|) := by
  refine ⟨?_, iscloseQ_eq_true_iff⟩
  simp only [filterRun, hm, hl]
  rw [filterLoop_of_all_eval]
  · simp only [List.reverse_nil, List.nil_append]
    congr 1
    apply List.filter_congr
    intro r hrm
    obtain ⟨q, hq2⟩ := Option.isSome_iff_exists.mp (hnum r hrm)
    match hgv : getattr r key with
    | none => rw [hgv] at hq2; simp at hq2
    | some v =>
      rw [hgv] at hq2
      simp only [Option.some_bind] at hq2
      have hk : keepItem key op lit r = compareQ op q litQ := by
        simp [keepItem, evalItem, hgv, applyCompare, hq2, hq]
      rw [hk]
      simp only [Option.some_bind, hq2]
      rcases hop with h | h | h <;> subst h <;> rfl
  · intro r hrm
    obtain ⟨q, hq2⟩ := Option.isSome_iff_exists.mp (hnum r hrm)
    match hgv : getattr r key with
    | none => rw [hgv] at hq2; simp at hq2
    | some v =>
      rw [hgv] at hq2
      simp only [Option.some_bind] at hq2
      simp [evalItem, hgv, applyCompare, hq2, hq]

/-- Witness for C1: `duration=2.0` keeps a record at exactly `2.0`, a
record within relative tolerance `1e-9` of it (approximate, not
bitwise, equality), and drops one at `3`. -/
theorem filter_eq_neq_isclose_characterization_witness :
    filterRun "duration=2.0" "m.json"
      [⟨"a", [("duration", .float 2)]⟩,
       ⟨"b", [("duration", .float (mkRat 4000000001 2000000000))]⟩,
       ⟨"c", [("duration", .int 3)]⟩]
      = .output [⟨"a", [("duration", .float 2)]⟩,
                 ⟨"b", [("duration", .float (mkRat 4000000001 2000000000))]⟩] :=
  ((filter_eq_neq_isclose_characterization "duration=2.0" "m.json"
      [⟨"a", [("duration", .float 2)]⟩,
       ⟨"b", [("duration", .float (mkRat 4000000001 2000000000))]⟩,
       ⟨"c", [("duration", .int 3)]⟩]
      "duration" "=" "2.0" (.float 2) 2
      (by decide) (Or.inl rfl) (by decide) rfl (by decide)).1).trans (by decide)

/-- C2: for every manifest set and `num_splits = k > 0`, `split`
produces `k` parts whose concatenation (hence multiset union) is
exactly the original record sequence, in order when `shuffle=false`,
with part sizes differing by at most 1. -/
theorem split_is_partition (k : ℕ) (xs : List Record) (hk : 0 < k) :
    (splitManifest k xs).length = k ∧
    (splitManifest k xs).flatten = xs ∧
    (∀ p ∈ splitManifest k xs, p.length = xs.length / k ∨ p.length = xs.length / k + 1) ∧
    (∀ p ∈ splitManifest k xs, ∀ q ∈ splitManifest k xs, p.length ≤ q.length + 1) := by
  have hsum : (partSizes xs.length k).sum = xs.length := partSizes_sum xs.length k hk
  have hlen : (splitManifest k xs).length = k := by
    rw [splitManifest, takeSizes_length, partSizes, List.length_map, List.length_range]
  have hjoin : (splitManifest k xs).flatten = xs := by
    rw [splitManifest, takeSizes_join, hsum, List.take_length]
  have hmem : ∀ p ∈ splitManifest k xs,
      p.length = xs.length / k ∨ p.length = xs.length / k + 1 := by
    intro p hp
    obtain ⟨s, hs, hpl⟩ := takeSizes_mem_length (partSizes xs.length k) xs hsum.le p hp
    rw [hpl]
    exact partSizes_mem xs.length k s hs
  refine ⟨hlen, hjoin, hmem, ?_⟩
  intro p hp q hq
  rcases hmem p hp with h1 | h1 <;> rcases hmem q hq with h2 | h2 <;> omega

/-- Witness for C2: splitting five records into two parts gives parts
of sizes 3 and 2 whose concatenation restores the input order. -/
theorem split_is_partition_witness :
    (splitManifest 2 [⟨"a", []⟩, ⟨"b", []⟩, ⟨"c", []⟩, ⟨"d", []⟩, ⟨"e", []⟩]).length = 2 ∧
    (splitManifest 2 [⟨"a", []⟩, ⟨"b", []⟩, ⟨"c", []⟩, ⟨"d", []⟩, ⟨"e", []⟩]).flatten
      = [⟨"a", []⟩, ⟨"b", []⟩, ⟨"c", []⟩, ⟨"d", []⟩, ⟨"e", []⟩] :=
  ⟨(split_is_partition 2 [⟨"a", []⟩, ⟨"b", []⟩, ⟨"c", []⟩, ⟨"d", []⟩, ⟨"e", []⟩]
      (by decide)).1,
   (split_is_partition 2 [⟨"a", []⟩, ⟨"b", []⟩, ⟨"c", []⟩, ⟨"d", []⟩, ⟨"e", []⟩]
      (by decide)).2.1⟩

/-- C3: if every record before `r` evaluates without raising and `r`
lacks the named attribute, the whole `filter` operation stops at `r`
(whatever follows it), with the caught-`AttributeError` outcome whose
message names the attribute and the manifest path, exit status 1 and no
output manifest written — never a per-record silent skip. -/
theorem filter_missing_attribute_fails_fast
    (pred mp : String) (key op vtext : String) (lit : Value)
    (pre : List Record) (r : Record) (post : List Record)
    (hm : pyMatch pred = some (key, op, vtext))
    (hl : parseLiteral vtext = some lit)
    (hpre : ∀ x ∈ pre, (evalItem key op lit x).isSome)
    (hr : getattr r key = none) :
    filterRun pred mp (pre ++ r :: post) = .attrError key mp ∧
    (Outcome.attrError key mp).exitCode = 1 ∧
    (Outcome.attrError key mp).wroteOutput = false := by
  refine ⟨?_, rfl, rfl⟩
  simp only [filterRun, hm, hl]
  exact filterLoop_attr_missing key op lit mp pre r post [] hpre hr

/-- Witness for C3: the second record lacks `duration`, so the run
aborts with the attribute error even though the first record matched
and a later record would match. -/
theorem filter_missing_attribute_fails_fast_witness :
    filterRun "duration>4" "m.json"
      [⟨"a", [("duration", .float 5)]⟩, ⟨"b", [("start", .int 0)]⟩,
       ⟨"c", [("duration", .float 9)]⟩]
      = .attrError "duration" "m.json" :=
  (filter_missing_attribute_fails_fast "duration>4" "m.json" "duration" ">" "4" (.int 4)
      [⟨"a", [("duration", .float 5)]⟩] ⟨"b", [("start", .int 0)]⟩
      [⟨"c", [("duration", .float 9)]⟩]
      (by decide) (by decide) (by decide) (by decide)).1

/-- C4: when the named attribute exists on every record and no record
satisfies the comparison, `filter` takes the informational empty-result
path: exit status 0 and no output manifest written — a terminal state
distinct from an error. -/
theorem filter_empty_result_exits_zero
    (pred mp : String) (data : List Record) (key op vtext : String) (lit : Value)
    (hm : pyMatch pred = some (key, op, vtext))
    (hl : parseLiteral vtext = some lit)
    (hall : ∀ r ∈ data, evalItem key op lit r = some false) :
    filterRun pred mp data = .emptyResult ∧
    Outcome.emptyResult.exitCode = 0 ∧
    Outcome.emptyResult.wroteOutput = false := by
  refine ⟨?_, rfl, rfl⟩
  simp only [filterRun, hm, hl]
  rw [filterLoop_of_all_eval _ _ _ _ _ _ (fun r h => by rw [hall r h]; rfl)]
  have hnil : data.filter (keepItem key op lit) = [] := by
    rw [List.filter_eq_nil_iff]
    intro r h
    simp [keepItem, hall r h]
  simp [hnil, finishFilter, to_manifest]

/-- Witness for C4: no record has `duration > 9`, so the run reports
the empty result and exits 0. -/
theorem filter_empty_result_exits_zero_witness :
    filterRun "duration>9" "m.json" [⟨"a", [("duration", .float 5)]⟩] = .emptyResult :=
  (filter_empty_result_exits_zero "duration>9" "m.json"
      [⟨"a", [("duration", .float 5)]⟩] "duration" ">" "9" (.int 9)
      (by decide) (by decide) (by decide)).1

/-- Counterexample to C5 as stated: `duration>4junk` does not match the
full grammar `<identifier><op><numeric literal>`, yet `filter` does not
fail with the invalid-predicate error — `re.match` performs prefix
matching, the record is examined and an output manifest is produced. -/
theorem filter_prefix_match_counterexample :
    specGrammarAccepts "duration>4junk" = false ∧
    filterRun "duration>4junk" "m.json" [⟨"a", [("duration", .float 5)]⟩]
      = .output [⟨"a", [("duration", .float 5)]⟩] := by decide

/-- C5 (amended): for every predicate text of which no prefix matches
the pattern `<identifier><op><digit-or-dot run>`, `filter` fails with
the invalid-predicate error — before examining any record, whatever the
manifest contents — with exit status 1 and no output written. -/
theorem filter_invalid_syntax_rejected (pred mp : String) (data : List Record)
    (h : pyMatch pred = none) :
    filterRun pred mp data = .invalidPredicate ∧
    Outcome.invalidPredicate.exitCode = 1 ∧
    Outcome.invalidPredicate.wroteOutput = false := by
  refine ⟨?_, rfl, rfl⟩
  simp only [filterRun, h]

/-- Witness for C5 (amended): `duration>` has an identifier and an
operator but no value, so no prefix matches and the run fails with the
invalid-predicate error. -/
theorem filter_invalid_syntax_rejected_witness :
    filterRun "duration>" "m.json" [⟨"a", [("duration", .float 5)]⟩]
      = .invalidPredicate :=
  (filter_invalid_syntax_rejected "duration>" "m.json"
      [⟨"a", [("duration", .float 5)]⟩] (by decide)).1

/-- Counterexample to C6 as stated: on the EMPTY manifest set every
record vacuously possesses the attribute and satisfies the predicate,
yet `filter` does not return a set equal to the input — it takes the
empty-result path and writes no output manifest at all. -/
theorem filter_trivial_empty_counterexample :
    filterRun "duration>=0" "m.json" [] = .emptyResult ∧
    Outcome.emptyResult.wroteOutput = false := by decide

/-- C6 (amended): for every NONEMPTY manifest set whose records all
possess the named attribute, filtering with a predicate that holds of
every record's attribute value returns the input set unchanged. -/
theorem filter_trivial_predicate_identity
    (pred mp : String) (data : List Record) (key op vtext : String) (lit : Value)
    (hne : data ≠ [])
    (hm : pyMatch pred = some (key, op, vtext))
    (hl : parseLiteral vtext = some lit)
    (hall : ∀ r ∈ data, evalItem key op lit r = some true) :
    filterRun pred mp data = .output data := by
  simp only [filterRun, hm, hl]
  rw [filterLoop_of_all_eval _ _ _ _ _ _ (fun r h => by rw [hall r h]; rfl)]
  have hself : data.filter (keepItem key op lit) = data := by
    rw [List.filter_eq_self]
    intro r h
    simp [keepItem, hall r h]
  simp [hself, finishFilter, to_manifest, hne]

/-- Witness for C6 (amended): `duration>=0` holds of both records, and
the output equals the input. -/
theorem filter_trivial_predicate_identity_witness :
    filterRun "duration>=0" "m.json"
      [⟨"a", [("duration", .float 5)]⟩, ⟨"b", [("duration", .int 0)]⟩]
      = .output [⟨"a", [("duration", .float 5)]⟩, ⟨"b", [("duration", .int 0)]⟩] :=
  filter_trivial_predicate_identity "duration>=0" "m.json"
    [⟨"a", [("duration", .float 5)]⟩, ⟨"b", [("duration", .int 0)]⟩]
    "duration" ">=" "0" (.int 0)
    (by decide) (by decide) (by decide) (by decide)

/-- C7: for every predicate text accepted by the grammar, the value
text is parsed with integer interpretation preferred — it yields an
`int` whenever Python `int()` accepts the text, and otherwise it is
parsed as a floating-point number whenever `float()` accepts it. -/
theorem literal_parse_prefers_int
    (pred key op vtext : String)
    (_hm : pyMatch pred = some (key, op, vtext)) :
    (∀ n : ℤ, pyIntParse vtext = some n → parseLiteral vtext = some (.int n)) ∧
    (pyIntParse vtext = none →
      ∀ q : ℚ, pyFloatParse vtext = some q → parseLiteral vtext = some (.float q)) := by
  constructor
  · intro n hn
    simp [parseLiteral, hn]
  · intro h q hq
    simp [parseLiteral, h, hq]

/-- Witness for C7: `7` parses as the integer 7; `2.5` is not a valid
integer text and parses as the float 5/2. -/
theorem literal_parse_prefers_int_witness :
    parseLiteral "7" = some (.int 7) ∧ parseLiteral "2.5" = some (.float (mkRat 5 2)) :=
  ⟨(literal_parse_prefers_int "x=7" "x" "=" "7" (by decide)).1 7 (by decide),
   (literal_parse_prefers_int "x<2.5" "x" "<" "2.5" (by decide)).2 (by decide)
      (mkRat 5 2) (by decide)⟩

/-- C8: supplying `--cutids` for a loaded manifest that is not a CutSet
raises the unsupported-operation `ValueError` naming the actual type;
no subsetting is performed and no output manifest is written. -/
theorem subset_cutids_noncut_error (fs : String → Option String) (kind : SetKind)
    (data : List Record) (first last : Option ℕ) (s : String) (cids : List String)
    (hk : kind ≠ .cut) (hres : resolveCutids fs s = some cids) :
    subsetRun fs kind data first last (some s) = .unsupportedCutids kind ∧
    (SubsetOutcome.unsupportedCutids kind).wroteOutput = false := by
  refine ⟨?_, rfl⟩
  simp [subsetRun, hres, hk]

/-- Witness for C8: `--cutids` on a SupervisionSet manifest raises the
error and writes nothing. -/
theorem subset_cutids_noncut_error_witness :
    subsetRun (fun _ => none) .supervision [⟨"a", []⟩] none none (some "[\"a\"]")
      = .unsupportedCutids .supervision :=
  (subset_cutids_noncut_error (fun _ => none) .supervision [⟨"a", []⟩] none none
      "[\"a\"]" ["a"] (by decide) (by decide)).1

/-- C9: the `--cutids` argument is accepted either as a filesystem path
to a file holding a JSON array of strings or as an inline JSON array
literal, and the resolved identifier list is what reaches the
underlying `subset` operation. -/
theorem subset_cutids_resolution (fs : String → Option String)
    (data : List Record) (first last : Option ℕ) (s : String) (l : List String)
    (h : (∃ content, fs s = some content ∧ jsonStringArray content = some l) ∨
         (fs s = none ∧ jsonStringArray s = some l)) :
    resolveCutids fs s = some l ∧
    subsetRun fs .cut data first last (some s)
      = .output (cutSubset data first last (some l)) := by
  have hres : resolveCutids fs s = some l := by
    rcases h with ⟨c, hc, hj⟩ | ⟨hn, hj⟩
    · simp [resolveCutids, hc, hj]
    · simp [resolveCutids, hn, hj]
  refine ⟨hres, ?_⟩
  simp [subsetRun, hres]

/-- Witness for C9: an inline JSON array (no such file exists) selects
the matching cuts in original order, ignoring the unmatched id. -/
theorem subset_cutids_resolution_witness :
    subsetRun (fun _ => none) .cut [⟨"a", []⟩, ⟨"b", []⟩, ⟨"c", []⟩] none none
      (some "[\"c\",\"a\",\"zz\"]") = .output [⟨"a", []⟩, ⟨"c", []⟩] :=
  ((subset_cutids_resolution (fun _ => none) [⟨"a", []⟩, ⟨"b", []⟩, ⟨"c", []⟩]
      none none "[\"c\",\"a\",\"zz\"]" ["c", "a", "zz"]
      (Or.inr ⟨rfl, by decide⟩)).2).trans (by decide)

/-- C10: a manifest whose record holds a non-numeric (string) value
under the predicate's attribute makes the ordering comparison raise an
uncaught `TypeError`: the outcome is none of the invalid-predicate,
attribute-error or empty-result outcomes, and no output manifest is
written. -/
theorem filter_type_error_uncaught :
    filterRun "duration>4" "m.json" [⟨"r1", [("duration", .str "abc")]⟩] = .typeError ∧
    Outcome.typeError.wroteOutput = false ∧
    Outcome.typeError ≠ .invalidPredicate ∧
    Outcome.typeError ≠ .attrError "duration" "m.json" ∧
    Outcome.typeError ≠ .emptyResult := by decide
